import Mathlib

/-!
Shallow embedding of the `rulip` Zulip client library (src/src/*.rs):
the event-queue dispatch protocol (register / poll / unregister,
cursor tracking, heartbeat suppression, builder accumulation) and the
structured error classification system, together with theorems settling
the specification claims about them.
-/

namespace Rulip

/-! ## Event data model (src/src/event.rs, `Event` / `EventOp`) -/

/-- Embeds `EventOp` from event.rs: the optional `op` field of an event. -/
inductive EventOp
  | Update
  | Add
  | Remove
  | PeerAdd
  | PeerRemove
  | Create
  | Delete
  | Start
  | Stop
  | AddMembers
  | RemoveMembers
  | AddSubgroups
  | RemoveSubgroups
  | Change
  | Deactivated
  | UpdateDict
deriving DecidableEq, Repr

/-- Embeds `Event` from event.rs: `{ id: i32, type: String, op: Option<EventOp> }`.
The i32 id is modelled as `Int`; the field `type` is named `kind` as in the
Rust source (serde-renamed). -/
structure Event where
  id : Int
  kind : String
  op : Option EventOp
deriving DecidableEq, Repr

/-! ## Structured errors (src/src/error.rs) -/

/-- Embeds `ZulipErrorCode` from error.rs: tag-based union keyed by the `code`
discriminator. `retry_after` is an `f32` in the source carrying an opaque
number of seconds; it is modelled as `Rat` (no arithmetic is done on it). -/
inductive ZulipErrorCode
  | BadRequest
  | RequestVariableMissing (var_name : String)
  | UserDeactivated
  | RealmDeactivated
  | RateLimitHit (retry_after : Rat)
  | AuthenticationFailed
deriving DecidableEq, Repr

/-- Embeds `ZulipError` from error.rs: `{ message: String, code: Option<ZulipErrorCode> }`
(the `code` field is serde-flattened; an unknown or absent tag yields `none`). -/
structure ZulipError where
  message : String
  code : Option ZulipErrorCode
deriving DecidableEq, Repr

/-- A transport-layer (`reqwest`) error, abstracted to the two facts the
library inspects: whether it is a builder-phase error (`is_builder`) and the
HTTP status it carries, if any (`error_for_status`). -/
structure HttpError where
  builder : Bool
  status : Option Nat
deriving DecidableEq, Repr

/-- Embeds `ErrorKind` from error.rs. -/
inductive ErrorKind
  | Zulip (e : ZulipError)
  | Build
  | Http (e : HttpError)
deriving DecidableEq, Repr

/-- Embeds `Error` from error.rs; the `source: Option<Box<dyn StdError>>` diagnostic
payload is dropped (it carries no classification information). -/
structure Error where
  kind : ErrorKind
deriving DecidableEq, Repr

/-- Embeds `Error::new_builder`. -/
def Error.new_builder (_e : HttpError) : Error := ⟨ErrorKind.Build⟩

/-- Embeds `Error::new_http`. -/
def Error.new_http (e : HttpError) : Error := ⟨ErrorKind.Http e⟩

/-- Embeds `Error::new_zulip`. -/
def Error.new_zulip (e : ZulipError) : Error := ⟨ErrorKind.Zulip e⟩

/-- Embeds `Error::is_zulip`. -/
def Error.is_zulip (e : Error) : Bool :=
  match e.kind with
  | ErrorKind.Zulip _ => true
  | _ => false

/-- Embeds `Error::is_http`. -/
def Error.is_http (e : Error) : Bool :=
  match e.kind with
  | ErrorKind.Http _ => true
  | _ => false

/-- Embeds `Error::is_build`. -/
def Error.is_build (e : Error) : Bool :=
  match e.kind with
  | ErrorKind.Build => true
  | _ => false

/-- Embeds `impl From<HttpError> for Error`: builder-phase errors become `Build`,
everything else becomes `Http`. -/
def Error.fromHttp (e : HttpError) : Error :=
  if e.builder then Error.new_builder e else Error.new_http e

/-- Embeds `ZulipError::is_bad_request`. -/
def ZulipError.is_bad_request (e : ZulipError) : Bool :=
  match e.code with
  | some ZulipErrorCode.BadRequest => true
  | _ => false

/-- Embeds `ZulipError::is_rate_limit_hit`. -/
def ZulipError.is_rate_limit_hit (e : ZulipError) : Bool :=
  match e.code with
  | some (ZulipErrorCode.RateLimitHit _) => true
  | _ => false

/-- Embeds `ZulipError::is_realm_deactivated`. -/
def ZulipError.is_realm_deactivated (e : ZulipError) : Bool :=
  match e.code with
  | some ZulipErrorCode.RealmDeactivated => true
  | _ => false

/-- Embeds `ZulipError::is_user_deactivated`. -/
def ZulipError.is_user_deactivated (e : ZulipError) : Bool :=
  match e.code with
  | some ZulipErrorCode.UserDeactivated => true
  | _ => false

/-- Embeds `ZulipError::is_variable_missing`. -/
def ZulipError.is_variable_missing (e : ZulipError) : Bool :=
  match e.code with
  | some (ZulipErrorCode.RequestVariableMissing _) => true
  | _ => false

/-- Embeds `ZulipError::is_auth_failed`. -/
def ZulipError.is_auth_failed (e : ZulipError) : Bool :=
  match e.code with
  | some ZulipErrorCode.AuthenticationFailed => true
  | _ => false

/-! ## Deserialization of application-error bodies -/

/-- The fields of a well-formed JSON error body that the serde derive on
`ZulipError` inspects: the `message` field, the `code` discriminator tag,
and the per-code extra fields `var_name` / `retry_after`. -/
structure ErrorBody where
  message : String
  code : Option String
  var_name : Option String
  retry_after : Option Rat
deriving DecidableEq, Repr

/-- Serde deserialization of `ZulipError` from an error body: the flattened
`Option<ZulipErrorCode>` matches the `code` tag against the six known
`#[serde(rename = ...)]` strings, reads the variant's extra field where one
is declared, and yields `none` for an absent or unknown tag (or a known tag
whose extra field is missing) while `message` is always populated. -/
def parseZulipError (b : ErrorBody) : ZulipError :=
  { message := b.message
    code :=
      match b.code with
      | none => none
      | some t =>
        if t = "BAD_REQUEST" then some ZulipErrorCode.BadRequest
        else if t = "REQUEST_VARIABLE_MISSING" then
          b.var_name.map ZulipErrorCode.RequestVariableMissing
        else if t = "USER_DEACTIVATED" then some ZulipErrorCode.UserDeactivated
        else if t = "REALM_DEACTIVATED" then some ZulipErrorCode.RealmDeactivated
        else if t = "RATE_LIMIT_HIT" then b.retry_after.map ZulipErrorCode.RateLimitHit
        else if t = "AUTHENTICATION_FAILED" then some ZulipErrorCode.AuthenticationFailed
        else none }

/-! ## `ClientInner::send` (src/src/lib.rs): status dispatch -/

/-- Embeds `StatusCode::is_informational`. -/
def statusInformational (s : Nat) : Bool := decide (100 ≤ s) && decide (s ≤ 199)

/-- Embeds `StatusCode::is_redirection`. -/
def statusRedirection (s : Nat) : Bool := decide (300 ≤ s) && decide (s ≤ 399)

/-- Embeds `StatusCode::is_client_error`. -/
def statusClientError (s : Nat) : Bool := decide (400 ≤ s) && decide (s ≤ 499)

/-- Embeds `StatusCode::is_server_error`. -/
def statusServerError (s : Nat) : Bool := decide (500 ≤ s) && decide (s ≤ 599)

/-- A raw response body as seen by `ClientInner::deserialize`, for an
expected success payload of type `P`: it decodes as an error body, decodes
as the success payload, or decodes as neither (`garbage`). -/
inductive RawBody (P : Type)
  | errorBody (b : ErrorBody)
  | payload (p : P)
  | garbage

/-- What `response.json::<ZulipError>()` yields on a raw body. -/
def RawBody.decodeErrorBody {P : Type} : RawBody P → Option ErrorBody
  | RawBody.errorBody b => some b
  | _ => none

/-- What `response.json::<P>()` yields on a raw body. -/
def RawBody.decodePayload {P : Type} : RawBody P → Option P
  | RawBody.payload p => some p
  | _ => none

/-- Embeds `ClientInner::send` from lib.rs, given the status and raw body of the
completed response. `none` models a panic: `ClientInner::deserialize` panics
when the body does not decode as the expected type, and the
informational/redirection arm is `unimplemented!()`. The cascade is the
source's:

    if res.status().is_client_error() { Err(Error::new_zulip(deserialize(res))) }
    else if res.status().is_server_error() { res.error_for_status()?; unreachable!() }
    else if res.status().is_informational() || res.status().is_redirection() { unimplemented!() }
    else { Ok(deserialize(res)) }
-/
def ClientInner.send {P : Type} (status : Nat) (raw : RawBody P) :
    Option (Except Error P) :=
  if statusClientError status then
    (raw.decodeErrorBody).map fun b => Except.error (Error.new_zulip (parseZulipError b))
  else if statusServerError status then
    some (Except.error (Error.new_http ⟨false, some status⟩))
  else if statusInformational status || statusRedirection status then
    none
  else
    (raw.decodePayload).map Except.ok

/-! ## Dispatcher state and the poll loop (src/src/event.rs, `Dispatcher`) -/

/-- Embeds `DispatcherParams` from event.rs: `{ queue_id: String, last_event_id: i32 }`. -/
structure DispatcherParams where
  queue_id : String
  last_event_id : Int
deriving DecidableEq, Repr

/-- The result of one `fetch_events` round-trip: either a `Vec<Event>`
(the `events` field of `EventsResponse`) or a structured error. -/
abbrev FetchResult := Except Error (List Event)

/-- Outcome of `Dispatcher::events` when run against a finite list of
server responses: a returned batch with the final dispatcher state, a
propagated error with the state at that point, or `pending` when the
response list is exhausted while the loop still wants another fetch. -/
inductive PollOutcome
  | ok (events : List Event) (s : DispatcherParams)
  | err (e : Error) (s : DispatcherParams)
  | pending (s : DispatcherParams)
deriving DecidableEq, Repr

/-- Embeds `Dispatcher::events` from event.rs, with the sequence of
`fetch_events` responses supplied as a list. The loop body is a direct
transcription:

    loop {
        let events = self.fetch_events().await?.events;
        if let Some(evt) = events.iter().last() {
            self.params.last_event_id = evt.id();
            if evt.kind.as_str() == "heartbeat" { continue; }
        }
        break Ok(events);
    }
-/
def Dispatcher.events (s : DispatcherParams) : List FetchResult → PollOutcome
  | [] => PollOutcome.pending s
  | Except.error e :: _ => PollOutcome.err e s
  | Except.ok evts :: rest =>
    match evts.getLast? with
    | none => PollOutcome.ok [] s
    | some evt =>
      let s' : DispatcherParams := { s with last_event_id := evt.id }
      if evt.kind = "heartbeat" then Dispatcher.events s' rest
      else PollOutcome.ok evts s'

/-- The dispatcher state carried by a poll outcome. -/
def PollOutcome.state : PollOutcome → DispatcherParams
  | PollOutcome.ok _ s => s
  | PollOutcome.err _ s => s
  | PollOutcome.pending s => s

/-- Embeds `UnregisterQueueRequest` from event.rs. -/
structure UnregisterQueueRequest where
  queue_id : String
deriving DecidableEq, Repr

/-- Embeds `impl From<&DispatcherParams> for UnregisterQueueRequest`:
`Dispatcher::unregister` builds its DELETE parameters from the state by
reading `queue_id` only; the state itself is not modified (the Rust method
takes `&self`). -/
def UnregisterQueueRequest.fromParams (s : DispatcherParams) : UnregisterQueueRequest :=
  ⟨s.queue_id⟩

/-- The successful batches among a list of fetch responses, in order. -/
def okBatchesOf (rs : List FetchResult) : List (List Event) :=
  rs.filterMap fun r =>
    match r with
    | Except.ok b => some b
    | Except.error _ => none

/-- The server-ordering assumption for one poll call, mirroring the loop:
each fetched batch's last event id is at least the cursor current when that
batch was fetched. -/
def cursorSafe (n : Int) : List FetchResult → Bool
  | [] => true
  | Except.error _ :: _ => true
  | Except.ok evts :: rest =>
    match evts.getLast? with
    | none => true
    | some e =>
      decide (n ≤ e.id) && (if e.kind = "heartbeat" then cursorSafe e.id rest else true)

/-- A sequence of poll calls on one Queue: each call is `Dispatcher::events`
run against its own list of fetch responses, threading the dispatcher state
(the only mutation of `last_event_id` in the library). Returns the final
state. -/
def runPolls (s : DispatcherParams) : List (List FetchResult) → DispatcherParams
  | [] => s
  | c :: cs => runPolls (Dispatcher.events s c).state cs

/-- The server-ordering assumption for a whole poll sequence. -/
def cursorSafeRun (s : DispatcherParams) : List (List FetchResult) → Bool
  | [] => true
  | c :: cs => cursorSafe s.last_event_id c && cursorSafeRun (Dispatcher.events s c).state cs

/-! ## Endpoints (src/src/endpoint.rs) and base-address normalization -/

/-- Embeds `Endpoint::BASE_API`. -/
def Endpoint.BASE_API : String := "/api/v1/"

/-- Embeds `Endpoint::FETCH_API_KEY`. -/
def Endpoint.FETCH_API_KEY : String := "fetch_api_key"

/-- Embeds `Endpoint::FETCH_DEV_API_KEY`. -/
def Endpoint.FETCH_DEV_API_KEY : String := "dev_fetch_api_key"

/-- Embeds `Endpoint::REGISTER_EVENT_QUEUE`. -/
def Endpoint.REGISTER_EVENT_QUEUE : String := "register"

/-- Embeds `Endpoint::EVENTS_QUEUE`. -/
def Endpoint.EVENTS_QUEUE : String := "events"

/-- An absolute URL, reduced to the components the library's base-address
handling touches: scheme, host, optional port, and path. -/
structure Url where
  scheme : String
  host : String
  port : Option Nat
  path : String
deriving DecidableEq, Repr

/-- Modelled from the spec: `Url::join` of the external url crate (an
out-of-scope collaborator, RFC 3986 reference resolution) as used here —
joining a reference that starts with "/" replaces the base's entire path
while preserving scheme, host and port; joining a relative reference
resolves it against the directory of the base path. The source comment in
`ClientBuilder::init` states the intent: "Notice the slash at the beginning
and at the end in order to replace any path from the URI." -/
def Url.join (u : Url) (ref : String) : Url :=
  if ref.toList.head? = some '/' then { u with path := ref }
  else { u with path := ((u.path.toList.reverse.dropWhile (fun c => c ≠ '/')).reverse).asString ++ ref }

/-! ## Client construction (src/src/lib.rs, `ClientBuilder` / `Credentials`) -/

/-- Embeds `Credentials` from lib.rs: `{ username: String, password: Option<String> }`
(deserialized from `{email, api_key}` on the key-fetch handshakes). -/
structure Credentials where
  username : String
  password : Option String
deriving DecidableEq, Repr

/-- Embeds `Credentials::new`. -/
def Credentials.new (username password : String) : Credentials :=
  ⟨username, some password⟩

/-- Embeds `Credentials::unauthenticated`. -/
def Credentials.unauthenticated (username : String) : Credentials :=
  ⟨username, none⟩

/-- The fields of `ClientBuilder`: the `reqwest::Result<Url>` produced by
`IntoUrl` (a malformed address yields a builder-phase `HttpError`), and the
three optional credential pieces. -/
structure ClientBuilder where
  uri : Except HttpError Url
  user : Option String
  password : Option String
  api_key : Option String

/-- Embeds `ClientBuilder::new`. -/
def ClientBuilder.new (uri : Except HttpError Url) : ClientBuilder :=
  ⟨uri, none, none, none⟩

/-- Embeds `ClientBuilder::with_credentials`. -/
def ClientBuilder.with_credentials (b : ClientBuilder) (user : String)
    (password : Option String) : ClientBuilder :=
  { b with password := password, user := some user }

/-- Embeds `ClientBuilder::with_key`. -/
def ClientBuilder.with_key (b : ClientBuilder) (user key : String) : ClientBuilder :=
  { b with api_key := some key, user := some user }

/-- The client state `ClientBuilder::init` produces: the normalized base
URI and the resolved credentials (`ClientInner` minus the transport handle). -/
structure ClientState where
  base_uri : Url
  credentials : Option Credentials
deriving DecidableEq, Repr

/-- Outcome of `ClientBuilder::init`: a client, a structured error, or a
panic (`Option::unwrap` on a missing user). -/
inductive InitResult
  | ok (c : ClientState)
  | err (e : Error)
  | panicked
deriving DecidableEq, Repr

/-- Embeds `ClientBuilder::init` from lib.rs, with the outcomes of the two
key-fetch handshakes (`fetch_api_key` / `dev_fetch_api_key` via
`ClientInner::send`) supplied as parameters. Returns the result together
with the list of endpoints actually requested over the network:

    let base_uri = self.uri?.join(Endpoint::BASE_API).unwrap();
    if let Some(key) = self.api_key { set_credentials(user.unwrap(), key) }
    else if let Some(password) = self.password { POST FETCH_API_KEY }
    else if let Some(user) = self.user { POST FETCH_DEV_API_KEY }
-/
def ClientBuilder.init (b : ClientBuilder)
    (fetchKey fetchDevKey : Except Error Credentials) : InitResult × List String :=
  match b.uri with
  | Except.error e => (InitResult.err (Error.fromHttp e), [])
  | Except.ok uri =>
    let base := uri.join Endpoint.BASE_API
    match b.api_key with
    | some key =>
      match b.user with
      | some user => (InitResult.ok ⟨base, some (Credentials.new user key)⟩, [])
      | none => (InitResult.panicked, [])
    | none =>
      match b.password with
      | some _ =>
        match b.user with
        | none => (InitResult.panicked, [])
        | some _ =>
          match fetchKey with
          | Except.ok creds => (InitResult.ok ⟨base, some creds⟩, [Endpoint.FETCH_API_KEY])
          | Except.error e => (InitResult.err e, [Endpoint.FETCH_API_KEY])
      | none =>
        match b.user with
        | some _ =>
          match fetchDevKey with
          | Except.ok creds => (InitResult.ok ⟨base, some creds⟩, [Endpoint.FETCH_DEV_API_KEY])
          | Except.error e => (InitResult.err e, [Endpoint.FETCH_DEV_API_KEY])
        | none => (InitResult.ok ⟨base, none⟩, [])

/-! ## Queue builder accumulation (src/src/event.rs, `QueueBuilder`) -/

/-- The push-if-absent step shared by `for_event` and `narrow`:

    if events.iter().find(|x| x == &&new).is_none() { events.push(new); }
-/
def dedupAppend {α : Type} [DecidableEq α] (acc : List α) (x : α) : List α :=
  if x ∈ acc then acc else acc ++ [x]

/-- Embeds `ClientCapabilities` from event.rs. -/
structure ClientCapabilities where
  notification_settings_null : Option Bool
  bulk_message_deletion : Option Bool
  user_avatar_url_field_optional : Option Bool
  stream_typing_notifications : Option Bool
  user_settings_object : Option Bool
deriving DecidableEq, Repr

/-- Embeds `impl Default for ClientCapabilities`: all five booleans `Some(true)`. -/
def ClientCapabilities.default : ClientCapabilities :=
  ⟨some true, some true, some true, some true, some true⟩

/-- Embeds `RegisterQueueRequest` from event.rs; the `[String; 2]` narrow entries
are modelled as pairs. -/
structure RegisterQueueRequest where
  apply_markdown : Option Bool
  client_gravatar : Option Bool
  slim_presence : Option Bool
  event_types : Option (List String)
  all_public_streams : Option Bool
  include_subscribers : Option Bool
  narrow : Option (List (String × String))
  client_capabilities : ClientCapabilities
deriving DecidableEq, Repr

/-- Embeds `impl Default for RegisterQueueRequest` (derived): every optional field
`None`, capabilities at their default. -/
def RegisterQueueRequest.default : RegisterQueueRequest :=
  ⟨none, none, none, none, none, none, none, ClientCapabilities.default⟩

/-- Embeds `QueueBuilder::for_event`: `get_or_insert` an empty vector, then push
the name only if it is not already present. -/
def RegisterQueueRequest.for_event (r : RegisterQueueRequest) (event : String) :
    RegisterQueueRequest :=
  { r with event_types := some (dedupAppend (r.event_types.getD []) event) }

/-- Embeds `QueueBuilder::narrow`: `get_or_insert` an empty vector, then push the
`(condition, value)` pair only if no entry matches both components. -/
def RegisterQueueRequest.addNarrow (r : RegisterQueueRequest)
    (condition value : String) : RegisterQueueRequest :=
  { r with narrow := some (dedupAppend (r.narrow.getD []) (condition, value)) }

/-- One call on `QueueBuilder`: the five flag setters (`Option::replace`,
last-write-wins), `for_event`, or `narrow`. -/
inductive QueueBuilderCall
  | apply_markdown (value : Bool)
  | client_gravatar (value : Bool)
  | slim_presence (value : Bool)
  | all_public_streams (value : Bool)
  | include_subscribers (value : Bool)
  | for_event (name : String)
  | narrow (condition value : String)
deriving DecidableEq, Repr

/-- Applying one builder call to the accumulated request. -/
def applyCall (r : RegisterQueueRequest) : QueueBuilderCall → RegisterQueueRequest
  | QueueBuilderCall.apply_markdown v => { r with apply_markdown := some v }
  | QueueBuilderCall.client_gravatar v => { r with client_gravatar := some v }
  | QueueBuilderCall.slim_presence v => { r with slim_presence := some v }
  | QueueBuilderCall.all_public_streams v => { r with all_public_streams := some v }
  | QueueBuilderCall.include_subscribers v => { r with include_subscribers := some v }
  | QueueBuilderCall.for_event name => r.for_event name
  | QueueBuilderCall.narrow c v => r.addNarrow c v

/-- The event-type names of a call sequence, in call order. -/
def eventNames (calls : List QueueBuilderCall) : List String :=
  calls.filterMap fun c =>
    match c with
    | QueueBuilderCall.for_event name => some name
    | _ => none

/-- The narrow pairs of a call sequence, in call order. -/
def narrowPairs (calls : List QueueBuilderCall) : List (String × String) :=
  calls.filterMap fun c =>
    match c with
    | QueueBuilderCall.narrow cond v => some (cond, v)
    | _ => none

/-- Modelled from the spec: "insertion-ordered set semantics — the
resulting set contains each distinct element exactly once, in first-seen
order". `seen` holds the elements already emitted. -/
def firstSeenFrom {α : Type} [DecidableEq α] (seen : List α) : List α → List α
  | [] => []
  | x :: xs =>
    if x ∈ seen then firstSeenFrom seen xs
    else x :: firstSeenFrom (seen ++ [x]) xs

/-- Modelled from the spec: the insertion-ordered deduplication of a list. -/
def firstSeen {α : Type} [DecidableEq α] (l : List α) : List α :=
  firstSeenFrom [] l

/-- Any batch returned by the poll loop is either empty or one of the
fetched batches, and in the latter case its last event is not a heartbeat. -/
lemma events_ok_cases (rs : List FetchResult) :
    ∀ (s s'' : DispatcherParams) (res : List Event),
      Dispatcher.events s rs = PollOutcome.ok res s'' →
      res = [] ∨ (res ∈ okBatchesOf rs ∧
        ∃ e, res.getLast? = some e ∧ e.kind ≠ "heartbeat") := by
  induction rs with
  | nil =>
    intro s s'' res h
    simp [Dispatcher.events] at h
  | cons r rest ih =>
    intro s s'' res h
    cases r with
    | error e => simp [Dispatcher.events] at h
    | ok evts =>
      cases hgl : evts.getLast? with
      | none =>
        simp [Dispatcher.events, hgl] at h
        exact Or.inl h.1
      | some evt =>
        by_cases hk : evt.kind = "heartbeat"
        · simp [Dispatcher.events, hgl, hk] at h
          rcases ih _ _ _ h with h0 | ⟨hmem, e, hle, hne⟩
          · exact Or.inl h0
          · exact Or.inr ⟨by simp [okBatchesOf] at hmem ⊢; exact Or.inr hmem,
              e, hle, hne⟩
        · simp [Dispatcher.events, hgl, hk] at h
          refine Or.inr ⟨?_, evt, ?_, hk⟩
          · simp [okBatchesOf, h.1.symm]
          · rw [h.1] at hgl; exact hgl

/-- The poll loop never changes the queue identifier. -/
lemma events_queue_id (rs : List FetchResult) :
    ∀ s : DispatcherParams, (Dispatcher.events s rs).state.queue_id = s.queue_id := by
  induction rs with
  | nil => intro s; rfl
  | cons r rest ih =>
    intro s
    cases r with
    | error e => rfl
    | ok evts =>
      cases hgl : evts.getLast? with
      | none => simp [Dispatcher.events, hgl, PollOutcome.state]
      | some evt =>
        by_cases hk : evt.kind = "heartbeat"
        · simp [Dispatcher.events, hgl, hk]
          exact ih _
        · simp [Dispatcher.events, hgl, hk, PollOutcome.state]

/-- Under the server-ordering assumption, one poll call never lowers the
cursor. -/
lemma events_cursor_mono (rs : List FetchResult) :
    ∀ s : DispatcherParams, cursorSafe s.last_event_id rs = true →
      s.last_event_id ≤ (Dispatcher.events s rs).state.last_event_id := by
  induction rs with
  | nil => intro s _; exact le_refl _
  | cons r rest ih =>
    intro s hsafe
    cases r with
    | error e => exact le_refl _
    | ok evts =>
      cases hgl : evts.getLast? with
      | none => simp [Dispatcher.events, hgl, PollOutcome.state]
      | some evt =>
        rw [cursorSafe, hgl] at hsafe
        simp only [Bool.and_eq_true, decide_eq_true_eq] at hsafe
        by_cases hk : evt.kind = "heartbeat"
        · simp only [Dispatcher.events, hgl, hk, if_pos rfl, if_true]
          have h2 := hsafe.2
          rw [if_pos hk] at h2
          have := ih { s with last_event_id := evt.id } h2
          exact le_trans hsafe.1 this
        · simp [Dispatcher.events, hgl, hk, PollOutcome.state]
          exact hsafe.1

lemma runPolls_append (pre : List (List FetchResult)) :
    ∀ (s : DispatcherParams) (post : List (List FetchResult)),
      runPolls s (pre ++ post) = runPolls (runPolls s pre) post := by
  induction pre with
  | nil => intro s post; rfl
  | cons c cs ih => intro s post; simp [runPolls, ih]

lemma cursorSafeRun_append (pre : List (List FetchResult)) :
    ∀ (s : DispatcherParams) (post : List (List FetchResult)),
      cursorSafeRun s (pre ++ post) = true →
      cursorSafeRun (runPolls s pre) post = true := by
  induction pre with
  | nil => intro s post h; exact h
  | cons c cs ih =>
    intro s post h
    rw [List.cons_append, cursorSafeRun, Bool.and_eq_true] at h
    exact ih _ _ h.2

lemma runPolls_cursor_mono (calls : List (List FetchResult)) :
    ∀ s : DispatcherParams, cursorSafeRun s calls = true →
      s.last_event_id ≤ (runPolls s calls).last_event_id := by
  induction calls with
  | nil => intro s _; exact le_refl _
  | cons c cs ih =>
    intro s h
    rw [cursorSafeRun, Bool.and_eq_true] at h
    exact le_trans (events_cursor_mono c s h.1) (ih _ h.2)

lemma runPolls_queue_id (calls : List (List FetchResult)) :
    ∀ s : DispatcherParams, (runPolls s calls).queue_id = s.queue_id := by
  induction calls with
  | nil => intro s; rfl
  | cons c cs ih =>
    intro s
    rw [runPolls, ih, events_queue_id]

/-! ## Claim theorems about the poll loop -/

/-- C1. If a fetched batch is non-empty and its positionally last event has
type "heartbeat", the dispatcher immediately issues another fetch (the call
reduces to polling the remaining responses with the advanced cursor) and
that batch is never the one returned to the caller; if the last event is
not a heartbeat, the batch is returned as-is — heartbeats at non-final
positions included, since the batch is returned unfiltered. -/
theorem poll_heartbeat_suppression (s : DispatcherParams) (evts : List Event)
    (e : Event) (rest : List FetchResult) (hl : evts.getLast? = some e) :
    (e.kind = "heartbeat" →
      Dispatcher.events s (Except.ok evts :: rest)
          = Dispatcher.events { s with last_event_id := e.id } rest
        ∧ ∀ res s'', Dispatcher.events s (Except.ok evts :: rest) = PollOutcome.ok res s''
            → res ≠ evts)
    ∧ (e.kind ≠ "heartbeat" →
      Dispatcher.events s (Except.ok evts :: rest)
          = PollOutcome.ok evts { s with last_event_id := e.id }) := by
  constructor
  · intro hk
    have hred : Dispatcher.events s (Except.ok evts :: rest)
        = Dispatcher.events { s with last_event_id := e.id } rest := by
      simp [Dispatcher.events, hl, hk]
    refine ⟨hred, ?_⟩
    intro res s'' hok hres
    rw [hred] at hok
    rcases events_ok_cases rest _ _ _ hok with h0 | ⟨_, e2, hle2, hne2⟩
    · rw [← hres, h0] at hl; simp at hl
    · rw [hres] at hle2
      rw [hl] at hle2
      have he : e = e2 := Option.some_inj.mp hle2
      exact hne2 (he ▸ hk)
  · intro hk
    simp [Dispatcher.events, hl, hk]

/-- Witness for C1 at a concrete input: a batch ending in a heartbeat is
skipped with the cursor advanced, and the next batch is delivered. -/
theorem poll_heartbeat_suppression_witness :
    Dispatcher.events ⟨"q", 0⟩
        [Except.ok [⟨5, "update", none⟩, ⟨6, "heartbeat", none⟩],
         Except.ok [⟨7, "update", none⟩]]
      = Dispatcher.events ⟨"q", 6⟩ [Except.ok [⟨7, "update", none⟩]]
    ∧ Dispatcher.events ⟨"q", 0⟩
        [Except.ok [⟨5, "heartbeat", none⟩, ⟨6, "update", none⟩]]
      = PollOutcome.ok [⟨5, "heartbeat", none⟩, ⟨6, "update", none⟩] ⟨"q", 6⟩ :=
  ⟨((poll_heartbeat_suppression ⟨"q", 0⟩
        [⟨5, "update", none⟩, ⟨6, "heartbeat", none⟩] ⟨6, "heartbeat", none⟩
        [Except.ok [⟨7, "update", none⟩]] (by decide)).1 rfl).1,
   (poll_heartbeat_suppression ⟨"q", 0⟩
        [⟨5, "heartbeat", none⟩, ⟨6, "update", none⟩] ⟨6, "update", none⟩
        [] (by decide)).2 (by decide)⟩

/-- C2. When a poll call returns successfully with a non-empty batch, the
final cursor equals the id of the positionally last event of the returned
batch. -/
theorem poll_cursor_eq_last (rs : List FetchResult) :
    ∀ (s s'' : DispatcherParams) (res : List Event) (e : Event),
      Dispatcher.events s rs = PollOutcome.ok res s'' →
      res.getLast? = some e →
      s''.last_event_id = e.id := by
  induction rs with
  | nil => intro s s'' res e h _; simp [Dispatcher.events] at h
  | cons r rest ih =>
    intro s s'' res e h hle
    cases r with
    | error e2 => simp [Dispatcher.events] at h
    | ok evts =>
      cases hgl : evts.getLast? with
      | none =>
        simp [Dispatcher.events, hgl] at h
        rw [h.1] at hle
        simp at hle
      | some evt =>
        by_cases hk : evt.kind = "heartbeat"
        · simp [Dispatcher.events, hgl, hk] at h
          exact ih _ _ _ _ h hle
        · simp [Dispatcher.events, hgl, hk] at h
          rw [← h.1, hgl] at hle
          rw [← h.2, Option.some_inj.mp hle]

/-- Witness for C2 at a concrete input: a two-event batch whose last id is 9
leaves the cursor at 9. -/
theorem poll_cursor_eq_last_witness :
    (DispatcherParams.mk "q" 9).last_event_id = (9 : Int) :=
  poll_cursor_eq_last [Except.ok [⟨5, "update", none⟩, ⟨9, "update", none⟩]]
    ⟨"q", 0⟩ ⟨"q", 9⟩ [⟨5, "update", none⟩, ⟨9, "update", none⟩]
    ⟨9, "update", none⟩ (by decide) rfl

/-- C9. A fetched empty batch terminates the loop: the empty event list is
returned to the caller and the dispatcher state — in particular the cursor —
is returned untouched. -/
theorem poll_empty_batch (s : DispatcherParams) (rest : List FetchResult) :
    Dispatcher.events s (Except.ok [] :: rest) = PollOutcome.ok [] s := rfl

/-- C8. A heartbeat-terminated batch is discarded whole — the poll call
reduces to polling the remaining responses with `last_event_id` already
advanced to the heartbeat's id — and, against a server that only ever emits
events with ids above the cursor it is handed (`hfresh`), no event of the
discarded batch (all of whose ids are at most the heartbeat's id, `hasc`)
ever appears in the batch finally returned. -/
theorem poll_heartbeat_discard_no_redelivery (s : DispatcherParams)
    (evts : List Event) (e : Event) (rest : List FetchResult)
    (hl : evts.getLast? = some e) (hhb : e.kind = "heartbeat")
    (hasc : ∀ ev ∈ evts, ev.id ≤ e.id)
    (hfresh : ∀ b ∈ okBatchesOf rest, ∀ ev ∈ b, e.id < ev.id) :
    Dispatcher.events s (Except.ok evts :: rest)
        = Dispatcher.events { s with last_event_id := e.id } rest
    ∧ ∀ res s'', Dispatcher.events s (Except.ok evts :: rest) = PollOutcome.ok res s''
        → ∀ ev ∈ evts, ev ∉ res := by
  have hred : Dispatcher.events s (Except.ok evts :: rest)
      = Dispatcher.events { s with last_event_id := e.id } rest := by
    simp [Dispatcher.events, hl, hhb]
  refine ⟨hred, ?_⟩
  intro res s'' hok ev hev hmem
  rw [hred] at hok
  rcases events_ok_cases rest _ _ _ hok with h0 | ⟨hb, _, _, _⟩
  · rw [h0] at hmem; simp at hmem
  · have h1 : e.id < ev.id := hfresh res hb ev hmem
    have h2 : ev.id ≤ e.id := hasc ev hev
    exact absurd h1 (not_lt.mpr h2)

/-- Witness for C8 at a concrete input: the batch `[{id 5, update},
{id 6, heartbeat}]` is dropped whole, and with a fresh follow-up batch the
discarded update event is not in the returned batch. -/
theorem poll_heartbeat_discard_no_redelivery_witness :
    Dispatcher.events ⟨"q", 0⟩
        [Except.ok [⟨5, "update", none⟩, ⟨6, "heartbeat", none⟩],
         Except.ok [⟨7, "update", none⟩]]
      = Dispatcher.events ⟨"q", 6⟩ [Except.ok [⟨7, "update", none⟩]]
    ∧ (⟨5, "update", none⟩ : Event) ∉ [(⟨7, "update", none⟩ : Event)] := by
  have h := poll_heartbeat_discard_no_redelivery ⟨"q", 0⟩
      [⟨5, "update", none⟩, ⟨6, "heartbeat", none⟩] ⟨6, "heartbeat", none⟩
      [Except.ok [⟨7, "update", none⟩]] (by decide) (by decide)
      (by decide) (by decide)
  exact ⟨h.1, h.2 [⟨7, "update", none⟩] ⟨"q", 7⟩ (by decide)
      ⟨5, "update", none⟩ (by decide)⟩

/-- C3 counterexample. With arbitrary server-returned batches the cursor is
NOT monotonically non-decreasing: starting from cursor 10, a fetched batch
whose single event has id 5 drags the cursor down to 5. -/
theorem poll_cursor_can_regress :
    Dispatcher.events ⟨"q", 10⟩ [Except.ok [⟨5, "update", none⟩]]
        = PollOutcome.ok [⟨5, "update", none⟩] ⟨"q", 5⟩
    ∧ (5 : Int) < 10 := by
  exact ⟨rfl, by decide⟩

/-- C3 (amended). Across any sequence of poll calls, the cursor is mutated
only by the poll operation — `runPolls` is the only state change and it
leaves `queue_id` intact — and it is monotonically non-decreasing at every
call boundary provided each fetched batch's last event id is at least the
cursor current when that batch was fetched (`cursorSafeRun`, the
server-guaranteed ordering the spec assumes). -/
theorem poll_sequence_cursor_mono (s : DispatcherParams)
    (calls pre post : List (List FetchResult))
    (hsplit : calls = pre ++ post)
    (hsafe : cursorSafeRun s calls = true) :
    (runPolls s pre).last_event_id ≤ (runPolls s calls).last_event_id
    ∧ (runPolls s calls).queue_id = s.queue_id := by
  constructor
  · rw [hsplit, runPolls_append]
    exact runPolls_cursor_mono post _ (cursorSafeRun_append pre s post (hsplit ▸ hsafe))
  · exact runPolls_queue_id calls s

/-- Witness for C3 (amended) at a concrete input: two poll calls with
ascending batches; after the first call the cursor (6) is no larger than
after the second (9), and the queue id survives. -/
theorem poll_sequence_cursor_mono_witness :
    (runPolls ⟨"q", 0⟩ [[Except.ok [⟨6, "update", none⟩]]]).last_event_id
        ≤ (runPolls ⟨"q", 0⟩ [[Except.ok [⟨6, "update", none⟩]],
            [Except.ok [⟨9, "update", none⟩]]]).last_event_id
    ∧ (runPolls ⟨"q", 0⟩ [[Except.ok [⟨6, "update", none⟩]],
        [Except.ok [⟨9, "update", none⟩]]]).queue_id = "q" :=
  poll_sequence_cursor_mono ⟨"q", 0⟩
    [[Except.ok [⟨6, "update", none⟩]], [Except.ok [⟨9, "update", none⟩]]]
    [[Except.ok [⟨6, "update", none⟩]]] [[Except.ok [⟨9, "update", none⟩]]]
    rfl (by decide)

/-! ## Lemmas about builder accumulation -/

lemma foldl_dedupAppend {α : Type} [DecidableEq α] (l : List α) :
    ∀ acc : List α, List.foldl dedupAppend acc l = acc ++ firstSeenFrom acc l := by
  induction l with
  | nil => intro acc; simp [firstSeenFrom]
  | cons x xs ih =>
    intro acc
    rw [List.foldl_cons, firstSeenFrom]
    by_cases hx : x ∈ acc
    · simp only [dedupAppend, if_pos hx]
      rw [ih acc]
    · simp only [dedupAppend, if_neg hx]
      rw [ih (acc ++ [x])]
      simp

lemma firstSeenFrom_notin_seen {α : Type} [DecidableEq α] (l : List α) :
    ∀ (seen : List α) (x : α), x ∈ firstSeenFrom seen l → x ∉ seen := by
  induction l with
  | nil => intro seen x h; simp [firstSeenFrom] at h
  | cons a xs ih =>
    intro seen x h
    rw [firstSeenFrom] at h
    by_cases ha : a ∈ seen
    · rw [if_pos ha] at h
      exact ih seen x h
    · rw [if_neg ha] at h
      rcases List.mem_cons.mp h with rfl | h2
      · exact ha
      · intro hx
        exact ih (seen ++ [a]) x h2 (List.mem_append_left _ hx)

lemma firstSeenFrom_nodup {α : Type} [DecidableEq α] (l : List α) :
    ∀ seen : List α, (firstSeenFrom seen l).Nodup := by
  induction l with
  | nil => intro seen; simp [firstSeenFrom]
  | cons a xs ih =>
    intro seen
    rw [firstSeenFrom]
    by_cases ha : a ∈ seen
    · rw [if_pos ha]; exact ih seen
    · rw [if_neg ha]
      refine List.nodup_cons.mpr ⟨?_, ih _⟩
      intro hmem
      exact firstSeenFrom_notin_seen xs (seen ++ [a]) a hmem
        (List.mem_append_right _ (List.mem_singleton.mpr rfl))

lemma firstSeenFrom_mem {α : Type} [DecidableEq α] (l : List α) :
    ∀ (seen : List α) (x : α), x ∈ firstSeenFrom seen l ↔ (x ∈ l ∧ x ∉ seen) := by
  induction l with
  | nil => intro seen x; simp [firstSeenFrom]
  | cons a xs ih =>
    intro seen x
    rw [firstSeenFrom]
    by_cases ha : a ∈ seen
    · rw [if_pos ha, ih]
      constructor
      · exact fun h => ⟨List.mem_cons_of_mem a h.1, h.2⟩
      · rintro ⟨h1, h2⟩
        rcases List.mem_cons.mp h1 with rfl | h3
        · exact absurd ha h2
        · exact ⟨h3, h2⟩
    · rw [if_neg ha]
      constructor
      · intro h
        rcases List.mem_cons.mp h with rfl | h2
        · exact ⟨List.mem_cons_self _ _, ha⟩
        · have := (ih _ _).mp h2
          refine ⟨List.mem_cons_of_mem a this.1, fun hx => this.2 (List.mem_append_left _ hx)⟩
      · rintro ⟨h1, h2⟩
        rcases List.mem_cons.mp h1 with rfl | h3
        · exact List.mem_cons_self _ _
        · by_cases hxa : x = a
          · subst hxa; exact List.mem_cons_self _ _
          · refine List.mem_cons_of_mem a ((ih _ _).mpr ⟨h3, ?_⟩)
            intro hx
            rcases List.mem_append.mp hx with h4 | h4
            · exact h2 h4
            · exact hxa (List.mem_singleton.mp h4)

lemma firstSeenFrom_sublist {α : Type} [DecidableEq α] (l : List α) :
    ∀ seen : List α, (firstSeenFrom seen l).Sublist l := by
  induction l with
  | nil => intro seen; simp [firstSeenFrom]
  | cons a xs ih =>
    intro seen
    rw [firstSeenFrom]
    by_cases ha : a ∈ seen
    · rw [if_pos ha]
      exact List.Sublist.cons a (ih seen)
    · rw [if_neg ha]
      exact List.Sublist.cons₂ a (ih (seen ++ [a]))

lemma foldl_applyCall_event_types (calls : List QueueBuilderCall) :
    ∀ r : RegisterQueueRequest,
      (List.foldl applyCall r calls).event_types.getD []
        = List.foldl dedupAppend (r.event_types.getD []) (eventNames calls) := by
  induction calls with
  | nil => intro r; simp [eventNames]
  | cons c cs ih =>
    intro r
    rw [List.foldl_cons, ih]
    cases c <;>
      simp [eventNames, applyCall, RegisterQueueRequest.for_event,
        RegisterQueueRequest.addNarrow]

lemma foldl_applyCall_narrow (calls : List QueueBuilderCall) :
    ∀ r : RegisterQueueRequest,
      (List.foldl applyCall r calls).narrow.getD []
        = List.foldl dedupAppend (r.narrow.getD []) (narrowPairs calls) := by
  induction calls with
  | nil => intro r; simp [narrowPairs]
  | cons c cs ih =>
    intro r
    rw [List.foldl_cons, ih]
    cases c <;>
      simp [narrowPairs, applyCall, RegisterQueueRequest.for_event,
        RegisterQueueRequest.addNarrow]

/-- C5. `for_event` and `narrow` implement insertion-ordered set semantics:
over any sequence of builder calls, the accumulated `event_types` and
`narrow` lists are exactly the first-seen deduplication of the names /
pairs supplied (each distinct element exactly once — `Nodup`, same
membership — in first-seen order — a sublist of the call order), and
re-adding an element already present is a no-op on the request. -/
theorem builder_insertion_ordered_sets (calls : List QueueBuilderCall) :
    ((List.foldl applyCall RegisterQueueRequest.default calls).event_types.getD []
        = firstSeen (eventNames calls)
      ∧ (List.foldl applyCall RegisterQueueRequest.default calls).narrow.getD []
        = firstSeen (narrowPairs calls))
    ∧ ((firstSeen (eventNames calls)).Nodup
      ∧ ∀ x, x ∈ firstSeen (eventNames calls) ↔ x ∈ eventNames calls)
    ∧ ((firstSeen (narrowPairs calls)).Nodup
      ∧ ∀ p, p ∈ firstSeen (narrowPairs calls) ↔ p ∈ narrowPairs calls)
    ∧ (firstSeen (eventNames calls)).Sublist (eventNames calls)
    ∧ (firstSeen (narrowPairs calls)).Sublist (narrowPairs calls)
    ∧ (∀ (r : RegisterQueueRequest) (l : List String) (x : String),
        r.event_types = some l → x ∈ l → r.for_event x = r)
    ∧ (∀ (r : RegisterQueueRequest) (l : List (String × String)) (c v : String),
        r.narrow = some l → (c, v) ∈ l → r.addNarrow c v = r) := by
  refine ⟨⟨?_, ?_⟩, ⟨firstSeenFrom_nodup _ _, ?_⟩, ⟨firstSeenFrom_nodup _ _, ?_⟩,
    firstSeenFrom_sublist _ _, firstSeenFrom_sublist _ _, ?_, ?_⟩
  · rw [foldl_applyCall_event_types, firstSeen, foldl_dedupAppend]
    simp [RegisterQueueRequest.default]
  · rw [foldl_applyCall_narrow, firstSeen, foldl_dedupAppend]
    simp [RegisterQueueRequest.default]
  · intro x
    rw [firstSeen, firstSeenFrom_mem]
    simp
  · intro p
    rw [firstSeen, firstSeenFrom_mem]
    simp
  · intro r l x hr hx
    have hd : dedupAppend l x = l := by simp [dedupAppend, hx]
    simp only [RegisterQueueRequest.for_event, hr, Option.getD_some, hd]
    rw [← hr]
  · intro r l c v hr hp
    have hd : dedupAppend l (c, v) = l := by simp [dedupAppend, hp]
    simp only [RegisterQueueRequest.addNarrow, hr, Option.getD_some, hd]
    rw [← hr]

/-- Witness for C5 at a concrete input: the repository's own builder test —
`for_event("reaction")` twice, `narrow("is","public")` twice plus two other
pairs — yields each element exactly once, in first-seen order, and a
re-adding call is a no-op. -/
theorem builder_insertion_ordered_sets_witness :
    (List.foldl applyCall RegisterQueueRequest.default
        [QueueBuilderCall.for_event "reaction", QueueBuilderCall.for_event "reaction",
         QueueBuilderCall.narrow "stream" "general", QueueBuilderCall.narrow "is" "public",
         QueueBuilderCall.narrow "is" "public", QueueBuilderCall.narrow "is" "private"]
      ).event_types.getD [] = ["reaction"]
    ∧ (List.foldl applyCall RegisterQueueRequest.default
        [QueueBuilderCall.for_event "reaction", QueueBuilderCall.for_event "reaction",
         QueueBuilderCall.narrow "stream" "general", QueueBuilderCall.narrow "is" "public",
         QueueBuilderCall.narrow "is" "public", QueueBuilderCall.narrow "is" "private"]
      ).narrow.getD [] = [("stream", "general"), ("is", "public"), ("is", "private")]
    ∧ ({ RegisterQueueRequest.default with event_types := some ["reaction"] }
        : RegisterQueueRequest).for_event "reaction"
      = { RegisterQueueRequest.default with event_types := some ["reaction"] } := by
  have h := builder_insertion_ordered_sets
    [QueueBuilderCall.for_event "reaction", QueueBuilderCall.for_event "reaction",
     QueueBuilderCall.narrow "stream" "general", QueueBuilderCall.narrow "is" "public",
     QueueBuilderCall.narrow "is" "public", QueueBuilderCall.narrow "is" "private"]
  refine ⟨?_, ?_, ?_⟩
  · rw [h.1.1]; decide
  · rw [h.1.2]; decide
  · exact h.2.2.2.2.2.1 _ ["reaction"] "reaction" rfl (by decide)

/-! ## Claim theorems about error classification and client construction -/

/-- C4. Classification of a completed request: a 4xx body with one of the
six known code tags parses to the matching `ZulipErrorCode` variant and the
response classifies as an Application (`Zulip`) error; a body with an
absent or unknown tag parses with `code = none` and the message populated,
without failing; a malformed base address makes `init` return a `Build`
error; a 5xx response classifies as a Transport (`Http`) error. -/
theorem error_classification (status4 status5 : Nat) (b : ErrorBody)
    (msg vn : String) (ra : Rat) (e : HttpError) (bld : ClientBuilder)
    (fk fdk : Except Error Credentials)
    (h4 : statusClientError status4 = true)
    (h5 : statusServerError status5 = true)
    (hbe : e.builder = true) :
    ((parseZulipError ⟨msg, some "BAD_REQUEST", none, none⟩).code
        = some ZulipErrorCode.BadRequest
      ∧ (parseZulipError ⟨msg, some "REQUEST_VARIABLE_MISSING", some vn, none⟩).code
        = some (ZulipErrorCode.RequestVariableMissing vn)
      ∧ (parseZulipError ⟨msg, some "USER_DEACTIVATED", none, none⟩).code
        = some ZulipErrorCode.UserDeactivated
      ∧ (parseZulipError ⟨msg, some "REALM_DEACTIVATED", none, none⟩).code
        = some ZulipErrorCode.RealmDeactivated
      ∧ (parseZulipError ⟨msg, some "RATE_LIMIT_HIT", none, some ra⟩).code
        = some (ZulipErrorCode.RateLimitHit ra)
      ∧ (parseZulipError ⟨msg, some "AUTHENTICATION_FAILED", none, none⟩).code
        = some ZulipErrorCode.AuthenticationFailed)
    ∧ (ClientInner.send (P := Unit) status4 (RawBody.errorBody b)
        = some (Except.error (Error.new_zulip (parseZulipError b)))
      ∧ (Error.new_zulip (parseZulipError b)).is_zulip = true)
    ∧ ((b.code = none → (parseZulipError b).code = none)
      ∧ (∀ t, b.code = some t →
          t ∉ ["BAD_REQUEST", "REQUEST_VARIABLE_MISSING", "USER_DEACTIVATED",
               "REALM_DEACTIVATED", "RATE_LIMIT_HIT", "AUTHENTICATION_FAILED"] →
          (parseZulipError b).code = none)
      ∧ (parseZulipError b).message = b.message)
    ∧ ((ClientBuilder.init { bld with uri := Except.error e } fk fdk).1
        = InitResult.err (Error.fromHttp e)
      ∧ (Error.fromHttp e).is_build = true)
    ∧ ((∀ raw : RawBody Unit, ClientInner.send status5 raw
        = some (Except.error (Error.new_http ⟨false, some status5⟩)))
      ∧ (Error.new_http ⟨false, some status5⟩).is_http = true) := by
  have h45 : statusClientError status5 = false := by
    simp only [statusServerError, Bool.and_eq_true, decide_eq_true_eq] at h5
    have h1 : decide (status5 ≤ 499) = false := decide_eq_false (by omega)
    simp [statusClientError, h1]
  refine ⟨⟨?_, ?_, ?_, ?_, ?_, ?_⟩, ⟨?_, rfl⟩, ⟨?_, ?_, rfl⟩, ⟨?_, ?_⟩, ⟨?_, rfl⟩⟩
  · simp [parseZulipError]
  · simp [parseZulipError]
  · simp [parseZulipError]
  · simp [parseZulipError]
  · simp [parseZulipError]
  · simp [parseZulipError]
  · simp [ClientInner.send, h4, RawBody.decodeErrorBody]
  · intro h
    simp [parseZulipError, h]
  · intro t ht hmem
    simp only [List.mem_cons, List.mem_singleton, not_or] at hmem
    obtain ⟨n1, n2, n3, n4, n5, n6⟩ := hmem
    simp [parseZulipError, ht, n1, n2, n3, n4, n5, n6]
  · simp [ClientBuilder.init]
  · simp [Error.fromHttp, hbe, Error.new_builder, Error.is_build]
  · intro raw
    simp [ClientInner.send, h45, h5]

/-- Witness for C4 at a concrete input: a 400 body tagged `BAD_REQUEST`
parses to the `BadRequest` code. -/
theorem error_classification_witness :
    (parseZulipError ⟨"Bad request", some "BAD_REQUEST", none, none⟩).code
      = some ZulipErrorCode.BadRequest :=
  (error_classification 400 500 ⟨"x", none, none, none⟩ "Bad request" "v" 1
    ⟨true, none⟩ (ClientBuilder.new (Except.ok ⟨"https", "h", none, "/"⟩))
    (Except.ok ⟨"u", none⟩) (Except.ok ⟨"u", none⟩)
    (by decide) (by decide) rfl).1.1

/-- C6 counterexample. The claim's "single exception" is wrong: a response
body that fails to decode also panics (`ClientInner::deserialize` calls
`panic!` when `response.json()` errors). Concretely, a 400 response with an
undecodable body panics instead of returning a structured error, and 400 is
neither an informational nor a redirection status. -/
theorem send_panics_on_undecodable_body :
    ClientInner.send (P := Unit) 400 RawBody.garbage = none
    ∧ statusInformational 400 = false
    ∧ statusRedirection 400 = false :=
  ⟨rfl, by decide, by decide⟩

/-- C6 (amended). `ClientInner::send` — the single choke point of send,
register, poll and unregister — returns a structured value (success or a
structured `Error`) for every completed response, and panics exactly when
the response status is informational/redirection (the `unimplemented!()`
arm) or the body fails to decode as the type the branch expects (the
`panic!` in `ClientInner::deserialize`): on a 4xx the error body, on the
success path the payload. -/
theorem send_structured_unless_intentional_panic {P : Type}
    (status : Nat) (raw : RawBody P) :
    ClientInner.send status raw = none ↔
      (statusClientError status = true ∧ raw.decodeErrorBody = none)
      ∨ (statusClientError status = false ∧ statusServerError status = false
          ∧ (statusInformational status = true ∨ statusRedirection status = true))
      ∨ (statusClientError status = false ∧ statusServerError status = false
          ∧ statusInformational status = false ∧ statusRedirection status = false
          ∧ raw.decodePayload = none) := by
  unfold ClientInner.send
  cases hc : statusClientError status <;>
    cases hs : statusServerError status <;>
      cases hi : statusInformational status <;>
        cases hr : statusRedirection status <;>
          simp [hc, hs, hi, hr, Option.map_eq_none']

/-- C7. Base-address normalization at client initialization: joining
`Endpoint::BASE_API` replaces any existing path with the canonical
"/api/v1/" while preserving scheme, host and port, so two addresses that
differ only in path normalize to the same base URI. -/
theorem base_address_normalization (u u1 u2 : Url)
    (hs : u1.scheme = u2.scheme) (hh : u1.host = u2.host) (hp : u1.port = u2.port) :
    u.join Endpoint.BASE_API = { u with path := "/api/v1/" }
    ∧ u1.join Endpoint.BASE_API = u2.join Endpoint.BASE_API
    ∧ (u.join Endpoint.BASE_API).scheme = u.scheme
    ∧ (u.join Endpoint.BASE_API).host = u.host
    ∧ (u.join Endpoint.BASE_API).port = u.port := by
  have hj : ∀ w : Url, w.join Endpoint.BASE_API = { w with path := "/api/v1/" } := by
    intro w
    rw [Url.join, if_pos (by decide)]
    rfl
  refine ⟨hj u, ?_, by rw [hj u], by rw [hj u], by rw [hj u]⟩
  rw [hj u1, hj u2]
  cases u1
  cases u2
  simp only at hs hh hp
  rw [hs, hh, hp]

/-- Witness for C7 at a concrete input: `https://h/` and
`https://h/some/path` normalize to the same canonical API root. -/
theorem base_address_normalization_witness :
    Url.join ⟨"https", "h", none, "/"⟩ Endpoint.BASE_API
      = (⟨"https", "h", none, "/api/v1/"⟩ : Url)
    ∧ Url.join ⟨"https", "h", none, "/"⟩ Endpoint.BASE_API
      = Url.join ⟨"https", "h", none, "/some/path"⟩ Endpoint.BASE_API :=
  ⟨(base_address_normalization ⟨"https", "h", none, "/"⟩
      ⟨"https", "h", none, "/"⟩ ⟨"https", "h", none, "/some/path"⟩ rfl rfl rfl).1,
   (base_address_normalization ⟨"https", "h", none, "/"⟩
      ⟨"https", "h", none, "/"⟩ ⟨"https", "h", none, "/some/path"⟩ rfl rfl rfl).2.1⟩

/-- C10. When both an API key and a password have been supplied, `init`
uses the API key directly as the credential secret and issues no network
request at all; and whenever an API key is set, no key-fetch request is
ever made (the request log of `init` is empty). -/
theorem init_uses_api_key_directly (bld : ClientBuilder) (uri : Url)
    (user key : String) (fk fdk : Except Error Credentials)
    (huri : bld.uri = Except.ok uri) (hu : bld.user = some user)
    (hk : bld.api_key = some key) :
    ClientBuilder.init bld fk fdk
      = (InitResult.ok ⟨uri.join Endpoint.BASE_API, some (Credentials.new user key)⟩, [])
    ∧ (∀ (b2 : ClientBuilder) (fk2 fdk2 : Except Error Credentials) (k2 : String),
        b2.api_key = some k2 → (ClientBuilder.init b2 fk2 fdk2).2 = []) := by
  constructor
  · simp [ClientBuilder.init, huri, hu, hk]
  · intro b2 fk2 fdk2 k2 hk2
    unfold ClientBuilder.init
    cases b2.uri with
    | error e => rfl
    | ok uri2 =>
      rw [hk2]
      cases b2.user <;> rfl

/-- Witness for C10 at a concrete input: a builder given credentials
(user + password) and then an API key resolves to the key as secret with an
empty request log. -/
theorem init_uses_api_key_directly_witness :
    ClientBuilder.init
        (ClientBuilder.with_key
          (ClientBuilder.with_credentials
            (ClientBuilder.new (Except.ok ⟨"https", "h", none, "/"⟩)) "u" (some "pw"))
          "u" "k")
        (Except.ok ⟨"u", some "fetched"⟩) (Except.ok ⟨"u", some "fetched"⟩)
      = (InitResult.ok ⟨⟨"https", "h", none, "/api/v1/"⟩,
          some (Credentials.new "u" "k")⟩, []) := by
  have h := init_uses_api_key_directly
    (ClientBuilder.with_key
      (ClientBuilder.with_credentials
        (ClientBuilder.new (Except.ok ⟨"https", "h", none, "/"⟩)) "u" (some "pw"))
      "u" "k")
    ⟨"https", "h", none, "/"⟩ "u" "k"
    (Except.ok ⟨"u", some "fetched"⟩) (Except.ok ⟨"u", some "fetched"⟩)
    rfl rfl rfl
  rw [h.1]
  decide

end Rulip
